import Mathlib

/-!
Verification of the scheduling/persistence core of the study-buddy skill
(`scripts/study_manager.py`): the SM-2 card scheduler, the JSON-file deck
store, the due-card query, the dashboard aggregation and the deck lifecycle.

The Python code is shallowly embedded: dictionaries become structures with
`Option` fields where the code reads keys with `.get(key, default)`, the file
system becomes an association list from deck id to deck record, Python's
float arithmetic on the ease factor becomes exact rational arithmetic, and
Python's `int(...)` truncation and `round(x, 2)` banker's rounding become
`pyInt` and `round2` below.  Timestamps are abstract integers (unit: days);
calendar dates are a separate integer day index.
-/

namespace StudyBuddy

/-- Python's `int(q)` on a real quantity: truncation toward zero. -/
def pyInt (q : ℚ) : ℤ :=
  if 0 ≤ q then ⌊q⌋ else -⌊-q⌋

/-- Round to the nearest integer, ties to the even neighbour — the rounding
Python's built-in `round` uses. -/
def roundHalfEven (q : ℚ) : ℤ :=
  if q - ⌊q⌋ < 1/2 then ⌊q⌋
  else if 1/2 < q - ⌊q⌋ then ⌊q⌋ + 1
  else if ⌊q⌋ % 2 = 0 then ⌊q⌋ else ⌊q⌋ + 1

/-- Python's `round(q, 2)`: round to two decimal places. -/
def round2 (q : ℚ) : ℚ :=
  (roundHalfEven (q * 100) : ℚ) / 100

/-- A flashcard record.  `interval`, `ease` and `reps` are optional because
`update_card` reads them with `card.get(..., default)`; `due`, `lastReview`,
`lastRating` and `created` are optional because a card may predate its first
review. -/
structure Card where
  id : String
  front : String
  back : String
  interval : Option ℤ
  ease : Option ℚ
  due : Option ℤ
  reps : Option ℤ
  lastReview : Option ℤ
  lastRating : Option ℤ
  created : Option ℤ
deriving DecidableEq, Repr

/-- A deck-index entry in the root record (`decks.json`).  `source` is
optional because the dashboard reads it with `.get("source", "manual")`. -/
structure DeckMeta where
  id : String
  name : String
  source : Option String
  cardCount : ℕ
deriving DecidableEq, Repr

/-- A per-deck record (`{deck_id}.json`). -/
structure Deck where
  id : String
  name : String
  source : String
  cards : List Card
  created : ℤ
deriving DecidableEq, Repr

/-- The global stats held in the root record.  `activity` is the daily
review histogram, total as a function (a missing or absent date reads 0,
matching `activity.get(today, 0)`). -/
structure Stats where
  totalReviews : ℕ
  streak : ℕ
  lastStudy : Option ℤ
  activity : ℤ → ℕ

/-- The whole on-disk state: the root record (deck index plus stats) and one
file per deck, keyed by deck id. -/
structure Store where
  decks : List DeckMeta
  stats : Stats
  files : List (String × Deck)

/-- Look a deck file up by id (`DATA_DIR / f"{deck_id}.json"` existing). -/
def lookupFile : List (String × Deck) → String → Option Deck
  | [], _ => none
  | (k, d) :: rest, i => if k = i then some d else lookupFile rest i

/-- `load_deck`: return the deck record if its file exists, else `None`. -/
def load_deck (s : Store) (deck_id : String) : Option Deck :=
  lookupFile s.files deck_id

/-- Writing a deck file: full-document overwrite of the record with that id,
creating it if absent. -/
def saveFile : List (String × Deck) → String → Deck → List (String × Deck)
  | [], i, d => [(i, d)]
  | (k, e) :: rest, i, d =>
      if k = i then (i, d) :: rest else (k, e) :: saveFile rest i d

/-- `save_deck`: persist a deck's record. -/
def save_deck (s : Store) (deck_id : String) (deck_data : Deck) : Store :=
  { s with files := saveFile s.files deck_id deck_data }

/-- Deleting a deck file (`unlink` guarded by `exists`, so absent is a
no-op). -/
def removeFile (files : List (String × Deck)) (deck_id : String) :
    List (String × Deck) :=
  files.filter fun kv => decide (kv.1 ≠ deck_id)

/-- `delete_deck`: remove the deck's file if present, drop its index entry,
persist the index and return `True` unconditionally. -/
def delete_deck (s : Store) (deck_id : String) : Bool × Store :=
  let files := removeFile s.files deck_id
  let decks := s.decks.filter fun d => decide (d.id ≠ deck_id)
  (true, { s with files := files, decks := decks })

/-- The card initialisation done by `create_deck`: SM-2 defaults
`interval=1, ease=2.5, due=None, reps=0`, the deck-local id
`"{deck_id}-{i}"`, and a creation timestamp. -/
def initCard (deck_id : String) (i : ℕ) (front back : String) (now : ℤ) :
    Card :=
  { id := deck_id ++ "-" ++ toString i
    front := front
    back := back
    interval := some 1
    ease := some (25/10)
    due := none
    reps := some 0
    lastReview := none
    lastRating := none
    created := some now }

/-- The SM-2 state transition of `update_card` (the block starting at
`# SM-2 Algorithm`): from the card's `(interval, ease, reps)` and the rating,
compute the new `(interval, ease, reps)`.  Faithful to the `if rating == 0 /
else` shape of the source: any non-zero rating is treated as successful
recall and increments `reps`, and a rating matched by none of the branches
leaves `interval` and `ease` as they were. -/
def sm2 (interval : ℤ) (ease : ℚ) (reps : ℤ) (rating : ℤ) : ℤ × ℚ × ℤ :=
  if rating = 0 then
    (1, max (13/10) (ease - 2/10), 0)
  else
    let reps := reps + 1
    if rating = 1 then
      (max 1 (pyInt ((interval : ℚ) * (12/10))), max (13/10) (ease - 15/100),
        reps)
    else if rating = 2 then
      ((if reps = 1 then 1 else if reps = 2 then 6
        else pyInt ((interval : ℚ) * ease)), ease, reps)
    else if rating = 3 then
      ((if reps = 1 then 4 else pyInt ((interval : ℚ) * ease * (13/10))),
        ease + 15/100, reps)
    else
      (interval, ease, reps)

/-- The per-card effect of `update_card` (lines `interval = card.get(...)`
through `card["lastRating"] = rating`): read the scheduling fields with their
defaults, run `sm2`, then write back the new fields with the ease rounded to
two decimals, `due = now + interval` days, and the review stamp. -/
def applyRating (c : Card) (rating : ℤ) (now : ℤ) : Card :=
  let interval := c.interval.getD 1
  let ease := c.ease.getD (25/10)
  let reps := c.reps.getD 0
  let res := sm2 interval ease reps rating
  { c with
      interval := some res.1
      ease := some (round2 res.2.1)
      reps := some res.2.2
      due := some (now + res.1)
      lastReview := some now
      lastRating := some rating }

/-- The card-locating loop of `update_card`: first card whose `id` matches,
together with its index. -/
def findCard : List Card → String → ℕ → Option (ℕ × Card)
  | [], _, _ => none
  | c :: cs, cid, i => if c.id = cid then some (i, c) else findCard cs cid (i + 1)

/-- The stats block of `update_card`: bump `totalReviews`; if the recorded
`lastStudy` differs from today's date, adjust the streak (one-day gap
increments it, a larger gap or no prior study resets it to 1) and stamp
`lastStudy := today`; finally bump today's entry of the activity histogram. -/
def updateStats (st : Stats) (today : ℤ) : Stats :=
  let st1 := { st with totalReviews := st.totalReviews + 1 }
  let st2 :=
    if st1.lastStudy = some today then st1
    else
      match st1.lastStudy with
      | some last =>
          if today - last = 1 then
            { st1 with streak := st1.streak + 1, lastStudy := some today }
          else if 1 < today - last then
            { st1 with streak := 1, lastStudy := some today }
          else
            { st1 with lastStudy := some today }
      | none => { st1 with streak := 1, lastStudy := some today }
  { st2 with
      activity := fun d => if d = today then st2.activity d + 1 else st2.activity d }

/-- `update_card(deck_id, card_id, rating)`: load the deck (error if
missing), locate the card (error if missing), apply the scheduler, write the
card back into the deck, persist the deck, update the global stats, and
return the updated card.  `now` is the review timestamp, `today` its
calendar date. -/
def update_card (s : Store) (deck_id card_id : String) (rating : ℤ)
    (now today : ℤ) : Except String (Card × Store) :=
  match load_deck s deck_id with
  | none => .error ("Deck not found: " ++ deck_id)
  | some deck =>
    match findCard deck.cards card_id 0 with
    | none => .error ("Card not found: " ++ card_id)
    | some (idx, card) =>
      let newCard := applyRating card rating now
      let newDeck := { deck with cards := deck.cards.set idx newCard }
      let s1 := save_deck s deck_id newDeck
      let s2 := { s1 with stats := updateStats s1.stats today }
      .ok (newCard, s2)

/-- The due predicate of `get_due_cards` and the dashboard: due when `due`
is `None` or `due <= now`. -/
def isDue (now : ℤ) (c : Card) : Bool :=
  match c.due with
  | none => true
  | some t => t ≤ now

/-- A due-card result: the card dict augmented with the owning deck's id and
name. -/
structure DueEntry where
  card : Card
  deck_id : String
  deck_name : String
deriving DecidableEq, Repr

/-- The inner loop of `get_due_cards`: walk a deck's cards, appending each
due one (augmented with the deck's id and name) to the accumulator. -/
def collectDueCards (now : ℤ) (did dname : String) :
    List Card → List DueEntry → List DueEntry
  | [], acc => acc
  | c :: cs, acc =>
      if isDue now c then
        collectDueCards now did dname cs (acc ++ [⟨c, did, dname⟩])
      else
        collectDueCards now did dname cs acc

/-- The outer loop of `get_due_cards` without a deck argument: walk the deck
index, skip entries whose deck file is missing, and collect each found
deck's due cards. -/
def goDecks (s : Store) (now : ℤ) :
    List DeckMeta → List DueEntry → List DueEntry
  | [], acc => acc
  | m :: ms, acc =>
      match load_deck s m.id with
      | none => goDecks s now ms acc
      | some deck =>
          goDecks s now ms (collectDueCards now m.id deck.name deck.cards acc)

/-- `get_due_cards(deck_id=None)`: all due cards of the named deck (empty if
its file is missing), or of every indexed deck in index order. -/
def get_due_cards (s : Store) (now : ℤ) (deck_id : Option String) :
    List DueEntry :=
  match deck_id with
  | some i =>
      match load_deck s i with
      | none => []
      | some deck => collectDueCards now i deck.name deck.cards []
  | none => goDecks s now s.decks []

/-- Per-deck counters of `get_dashboard_data`'s card loop. -/
structure DeckCounts where
  due : ℕ
  new : ℕ
  mastered : ℕ
deriving DecidableEq, Repr

/-- The card loop of `get_dashboard_data`: a card with `due = None` is new
(and due today), one with a past-or-present `due` is due; a card whose
`interval` (default 1) exceeds 21 is mastered. -/
def deckCounts (now : ℤ) : List Card → DeckCounts
  | [] => ⟨0, 0, 0⟩
  | c :: cs =>
      let r := deckCounts now cs
      { due := (match c.due with
                | none => 0
                | some t => if t ≤ now then 1 else 0) + r.due
        new := (match c.due with | none => 1 | some _ => 0) + r.new
        mastered := (if 21 < c.interval.getD 1 then 1 else 0) + r.mastered }

/-- One deck's entry of the dashboard's `decks` list. -/
structure DeckSummary where
  id : String
  name : String
  source : String
  cardCount : ℕ
  due : ℕ
  new : ℕ
  mastered : ℕ
deriving DecidableEq, Repr

/-- The accumulated totals and per-deck summaries of the dashboard scan. -/
structure DashboardCounts where
  totalCards : ℕ
  dueToday : ℕ
  mastered : ℕ
  summaries : List DeckSummary
deriving DecidableEq, Repr

/-- The deck loop of `get_dashboard_data`: skip index entries whose deck
file is missing (`if not deck: continue`); otherwise count the deck's cards
into the totals and emit its summary. -/
def dashboardLoop (s : Store) (now : ℤ) : List DeckMeta → DashboardCounts
  | [] => ⟨0, 0, 0, []⟩
  | m :: ms =>
      match load_deck s m.id with
      | none => dashboardLoop s now ms
      | some deck =>
          let rest := dashboardLoop s now ms
          let dc := deckCounts now deck.cards
          { totalCards := deck.cards.length + rest.totalCards
            dueToday := dc.due + dc.new + rest.dueToday
            mastered := dc.mastered + rest.mastered
            summaries :=
              { id := m.id
                name := m.name
                source := m.source.getD "manual"
                cardCount := deck.cards.length
                due := dc.due
                new := dc.new
                mastered := dc.mastered } :: rest.summaries }

/-- The dashboard value. -/
structure Dashboard where
  totalCards : ℕ
  dueToday : ℕ
  mastered : ℕ
  streak : ℕ
  decks : List DeckSummary
  activity : ℤ → ℕ

/-- `get_dashboard_data()`: full scan of all indexed decks plus the stored
streak and activity histogram. -/
def get_dashboard_data (s : Store) (now : ℤ) : Dashboard :=
  let counts := dashboardLoop s now s.decks
  { totalCards := counts.totalCards
    dueToday := counts.dueToday
    mastered := counts.mastered
    streak := s.stats.streak
    decks := counts.summaries
    activity := s.stats.activity }

/-- Reviewing a card repeatedly: fold `applyRating` over a list of ratings
(same review timestamp throughout; the timestamp does not feed back into the
scheduling arithmetic). -/
def reviewSeq (c : Card) (now : ℤ) : List ℤ → Card
  | [] => c
  | r :: rs => reviewSeq (applyRating c r now) now rs

/-! ### Spec-side definitions

These follow the wording of the specification (`spec.md`), to be compared
with the definitions above, which are translated from the source. -/

/-- The SM-2 table as §4.1 of the spec writes it, one clause per rating
(`Again`, `Hard`, `Good`, `Easy`), with `reps` incremented first on the
three success ratings and the interval chosen from the incremented value.
`floor` in the spec's table is truncation toward zero, as §4.1's note on
interval arithmetic prescribes.  Ratings outside the four accepted values
are not given by the table (`none`). -/
def specSM2 (interval : ℤ) (ease : ℚ) (reps : ℤ) (rating : ℤ) :
    Option (ℤ × ℚ × ℤ) :=
  if rating = 0 then
    some (1, max (13/10) (ease - 2/10), 0)
  else if rating = 1 then
    some (max 1 (pyInt ((interval : ℚ) * (12/10))),
      max (13/10) (ease - 15/100), reps + 1)
  else if rating = 2 then
    some ((if reps + 1 = 1 then 1 else if reps + 1 = 2 then 6
           else pyInt ((interval : ℚ) * ease)), ease, reps + 1)
  else if rating = 3 then
    some ((if reps + 1 = 1 then 4 else pyInt ((interval : ℚ) * ease * (13/10))),
      ease + 15/100, reps + 1)
  else
    none

/-- One deck's due cards as §4.3 of the spec describes them: the cards
satisfying the due predicate, in card order, each augmented with the owning
deck's id and name. -/
def dueCardsSpecDeck (now : ℤ) (did dname : String) (cards : List Card) :
    List DueEntry :=
  (cards.filter (isDue now)).map fun c => ⟨c, did, dname⟩

/-- The all-decks scan as §4.3 describes it: deck-index order, then card
order within each deck, entries of index rows without a backing deck record
contributing nothing. -/
def dueCardsSpecAll (s : Store) (now : ℤ) : List DeckMeta → List DueEntry
  | [] => []
  | m :: ms =>
      (match load_deck s m.id with
       | none => []
       | some deck => dueCardsSpecDeck now m.id deck.name deck.cards)
        ++ dueCardsSpecAll s now ms

/-- `getDueCards` as §4.3 describes it: restricted to the named deck when a
deck id is given, otherwise the all-decks scan. -/
def dueCardsSpec (s : Store) (now : ℤ) : Option String → List DueEntry
  | some i =>
      match load_deck s i with
      | none => []
      | some deck => dueCardsSpecDeck now i deck.name deck.cards
  | none => dueCardsSpecAll s now s.decks

/-! ### Concrete fixtures used in counterexamples and witnesses -/

/-- A card with the creation defaults `interval=1, ease=2.5, due=None,
reps=0`. -/
def exCard : Card :=
  { id := "d-0", front := "q", back := "a", interval := some 1,
    ease := some (25/10), due := none, reps := some 0, lastReview := none,
    lastRating := none, created := none }

/-- A card carrying none of the scheduling fields. -/
def bareCard : Card :=
  { id := "d-1", front := "q2", back := "a2", interval := none,
    ease := none, due := none, reps := none, lastReview := none,
    lastRating := none, created := none }

/-- A one-card deck record. -/
def exDeck : Deck :=
  { id := "d", name := "Deck", source := "manual", cards := [exCard],
    created := 0 }

/-- Fresh global stats. -/
def exStats : Stats :=
  { totalReviews := 0, streak := 0, lastStudy := none, activity := fun _ => 0 }

/-- A store holding `exDeck` under id `"d"`, indexed. -/
def exStore : Store :=
  { decks := [{ id := "d", name := "Deck", source := some "manual",
                cardCount := 1 }],
    stats := exStats, files := [("d", exDeck)] }

/-- Stats with a study recorded yesterday (day 1) relative to day 2. -/
def exStatsYesterday : Stats :=
  { totalReviews := 3, streak := 5, lastStudy := some 1,
    activity := fun _ => 0 }

/-- A second index entry, with no backing deck record. -/
def exMetaE : DeckMeta :=
  { id := "e", name := "Deck2", source := none, cardCount := 0 }

/-- A store indexing two decks, of which only `"d"` has a record. -/
def exStore2 : Store :=
  { decks := [{ id := "d", name := "Deck", source := some "manual",
                cardCount := 1 }, exMetaE],
    stats := exStats, files := [("d", exDeck)] }

/-! ### Helper lemmas -/

theorem pyInt_eq_floor {q : ℚ} (h : 0 ≤ q) : pyInt q = ⌊q⌋ := by
  simp [pyInt, h]

theorem le_pyInt {n : ℤ} {q : ℚ} (hn : 0 ≤ n) (h : (n : ℚ) ≤ q) :
    n ≤ pyInt q := by
  have hq : 0 ≤ q := le_trans (by exact_mod_cast hn) h
  rw [pyInt_eq_floor hq]
  exact Int.le_floor.mpr h

theorem floor_le_roundHalfEven (q : ℚ) : ⌊q⌋ ≤ roundHalfEven q := by
  unfold roundHalfEven
  split_ifs <;> omega

theorem round2_ge_of_ge {q : ℚ} (h : (13/10 : ℚ) ≤ q) :
    (13/10 : ℚ) ≤ round2 q := by
  have h100 : (130 : ℚ) ≤ q * 100 := by linarith
  have hfl : (130 : ℤ) ≤ ⌊q * 100⌋ := Int.le_floor.mpr (by exact_mod_cast h100)
  have hr : (130 : ℤ) ≤ roundHalfEven (q * 100) :=
    le_trans hfl (floor_le_roundHalfEven _)
  have hrq : (130 : ℚ) ≤ (roundHalfEven (q * 100) : ℚ) := by exact_mod_cast hr
  unfold round2
  linarith

theorem sm2_ease_ge {e : ℚ} (he : (13/10 : ℚ) ≤ e) (i r rating : ℤ) :
    (13/10 : ℚ) ≤ (sm2 i e r rating).2.1 := by
  unfold sm2
  split_ifs <;> simp <;> linarith [le_max_left (13/10 : ℚ) (e - 2/10),
    le_max_left (13/10 : ℚ) (e - 15/100)]

theorem sm2_interval_ge_one {i : ℤ} {e : ℚ} (hi : 1 ≤ i)
    (he : (13/10 : ℚ) ≤ e) (r rating : ℤ) : 1 ≤ (sm2 i e r rating).1 := by
  have hiq : (1 : ℚ) ≤ (i : ℚ) := by exact_mod_cast hi
  have he1 : (1 : ℚ) ≤ e := by linarith
  have hie : (1 : ℚ) ≤ (i : ℚ) * e := by nlinarith
  have hie13 : (1 : ℚ) ≤ (i : ℚ) * e * (13/10) := by nlinarith
  unfold sm2
  split_ifs <;>
    simp <;>
    (try split_ifs) <;>
    first
      | omega
      | exact Or.inl le_rfl
      | exact le_pyInt (by omega) (by exact_mod_cast hie)
      | exact le_pyInt (by omega) (by exact_mod_cast hie13)

theorem collectDueCards_eq (now : ℤ) (did dname : String) :
    ∀ (cs : List Card) (acc : List DueEntry),
      collectDueCards now did dname cs acc =
        acc ++ dueCardsSpecDeck now did dname cs
  | [], acc => by simp [collectDueCards, dueCardsSpecDeck]
  | c :: cs, acc => by
      by_cases h : isDue now c = true
      · rw [collectDueCards, if_pos h, collectDueCards_eq now did dname cs]
        simp [dueCardsSpecDeck, h]
      · rw [collectDueCards, if_neg h, collectDueCards_eq now did dname cs]
        simp [dueCardsSpecDeck, h]

theorem goDecks_eq (s : Store) (now : ℤ) :
    ∀ (ms : List DeckMeta) (acc : List DueEntry),
      goDecks s now ms acc = acc ++ dueCardsSpecAll s now ms
  | [], acc => by simp [goDecks, dueCardsSpecAll]
  | m :: ms, acc => by
      cases h : load_deck s m.id with
      | none => simp [goDecks, dueCardsSpecAll, h, goDecks_eq s now ms acc]
      | some deck =>
          simp [goDecks, dueCardsSpecAll, h, goDecks_eq s now ms,
            collectDueCards_eq]

theorem goDecks_decks_irrel (s : Store) (d : List DeckMeta) (now : ℤ) :
    ∀ (ms : List DeckMeta) (acc : List DueEntry),
      goDecks { s with decks := d } now ms acc = goDecks s now ms acc
  | [], _ => rfl
  | m :: ms, acc => by
      rw [goDecks, goDecks]
      have hld : load_deck { s with decks := d } m.id = load_deck s m.id := rfl
      rw [hld]
      cases load_deck s m.id with
      | none => exact goDecks_decks_irrel s d now ms acc
      | some deck => exact goDecks_decks_irrel s d now ms _

theorem goDecks_filter_present (s : Store) (now : ℤ) :
    ∀ (ms : List DeckMeta) (acc : List DueEntry),
      goDecks s now (ms.filter fun m => (load_deck s m.id).isSome) acc =
        goDecks s now ms acc
  | [], _ => rfl
  | m :: ms, acc => by
      cases h : load_deck s m.id with
      | none =>
          rw [List.filter_cons_of_neg (by simp [h])]
          rw [goDecks_filter_present s now ms acc, goDecks, h]
      | some deck =>
          rw [List.filter_cons_of_pos (by simp [h])]
          simp only [goDecks, h]
          rw [goDecks_filter_present s now ms]

theorem dashboardLoop_decks_irrel (s : Store) (d : List DeckMeta) (now : ℤ) :
    ∀ ms : List DeckMeta,
      dashboardLoop { s with decks := d } now ms = dashboardLoop s now ms
  | [] => rfl
  | m :: ms => by
      rw [dashboardLoop, dashboardLoop]
      have hld : load_deck { s with decks := d } m.id = load_deck s m.id := rfl
      rw [hld]
      cases load_deck s m.id with
      | none => exact dashboardLoop_decks_irrel s d now ms
      | some deck => rw [dashboardLoop_decks_irrel s d now ms]

theorem dashboardLoop_filter_present (s : Store) (now : ℤ) :
    ∀ ms : List DeckMeta,
      dashboardLoop s now (ms.filter fun m => (load_deck s m.id).isSome) =
        dashboardLoop s now ms
  | [] => rfl
  | m :: ms => by
      cases h : load_deck s m.id with
      | none =>
          rw [List.filter_cons_of_neg (by simp [h])]
          rw [dashboardLoop_filter_present s now ms, dashboardLoop, h]
      | some deck =>
          rw [List.filter_cons_of_pos (by simp [h])]
          rw [dashboardLoop, dashboardLoop, h,
            dashboardLoop_filter_present s now ms]

theorem lookupFile_saveFile (i : String) (d : Deck) :
    ∀ fs : List (String × Deck), lookupFile (saveFile fs i d) i = some d
  | [] => by simp [saveFile, lookupFile]
  | (k, e) :: rest => by
      by_cases h : k = i
      · rw [saveFile, if_pos h, lookupFile, if_pos rfl]
      · rw [saveFile, if_neg h, lookupFile, if_neg h]
        exact lookupFile_saveFile i d rest

theorem filter_self_idem {α : Type} (p : α → Bool) :
    ∀ l : List α, (l.filter p).filter p = l.filter p
  | [] => rfl
  | a :: l => by
      by_cases h : p a = true
      · rw [List.filter_cons_of_pos h, List.filter_cons_of_pos h,
          filter_self_idem p l]
      · rw [List.filter_cons_of_neg h, filter_self_idem p l]

theorem mem_dueCardsSpecDeck {now : ℤ} {c : Card} {cards : List Card}
    (did dname : String) (hc : c ∈ cards) (hdue : isDue now c = true) :
    (⟨c, did, dname⟩ : DueEntry) ∈ dueCardsSpecDeck now did dname cards := by
  simp only [dueCardsSpecDeck, List.mem_map]
  exact ⟨c, List.mem_filter.mpr ⟨hc, hdue⟩, rfl⟩

theorem mem_dueCardsSpecAll {s : Store} {now : ℤ} {m : DeckMeta} {deck : Deck}
    {c : Card} (hd : load_deck s m.id = some deck) (hc : c ∈ deck.cards)
    (hdue : isDue now c = true) :
    ∀ ms : List DeckMeta, m ∈ ms →
      (⟨c, m.id, deck.name⟩ : DueEntry) ∈ dueCardsSpecAll s now ms
  | m' :: ms, hm => by
      rw [dueCardsSpecAll]
      rcases List.mem_cons.mp hm with h | h
      · subst h
        rw [hd]
        exact List.mem_append_left _ (mem_dueCardsSpecDeck _ _ hc hdue)
      · exact List.mem_append_right _ (mem_dueCardsSpecAll hd hc hdue ms h)

theorem reviewSeq_ease_ge (now : ℤ) :
    ∀ (rs : List ℤ) (c : Card),
      (13/10 : ℚ) ≤ c.ease.getD (25/10) →
      (13/10 : ℚ) ≤ (reviewSeq c now rs).ease.getD (25/10)
  | [], c, h => h
  | r :: rs, c, h => by
      rw [reviewSeq]
      refine reviewSeq_ease_ge now rs _ ?_
      show (13/10 : ℚ) ≤ (round2 (sm2 (c.interval.getD 1) (c.ease.getD (25/10))
        (c.reps.getD 0) r).2.1)
      exact round2_ge_of_ge (sm2_ease_ge h _ _ _)

/-! ### Claim theorems -/

/-- Claim C7: for every deck value representable in the store's encoding,
`save_deck` followed by `load_deck` on the same id returns a deck equal in
all fields to the one saved. -/
theorem save_deck_load_deck_roundtrip (s : Store) (deck_id : String)
    (deck : Deck) : load_deck (save_deck s deck_id deck) deck_id = some deck :=
  lookupFile_saveFile deck_id deck s.files

/-- Claim C8: `delete_deck` reports completion (`true`) no matter whether the
deck existed, a second call with the same id is a no-op returning the same
result (so it cannot error), and afterwards the index holds no entry for
that id. -/
theorem delete_deck_idempotent_total (s : Store) (deck_id : String) :
    (delete_deck s deck_id).1 = true ∧
    delete_deck (delete_deck s deck_id).2 deck_id = delete_deck s deck_id ∧
    ∀ m ∈ (delete_deck s deck_id).2.decks, m.id ≠ deck_id := by
  refine ⟨rfl, ?_, ?_⟩
  · simp only [delete_deck, removeFile]
    rw [filter_self_idem, filter_self_idem]
  · intro m hm
    simp only [delete_deck, List.mem_filter] at hm
    exact of_decide_eq_true hm.2

/-- Witness for claim C8: after deleting deck `"d"` from the two-deck store,
the surviving index entry is not `"d"`. -/
theorem delete_deck_idempotent_total_witness : exMetaE.id ≠ "d" :=
  (delete_deck_idempotent_total exStore2 "d").2.2 exMetaE (by decide)

/-- Claim C9: an index entry whose backing deck record is missing is
silently skipped: both `get_due_cards` (all-decks form) and
`get_dashboard_data` return exactly what they return on the store whose
index is restricted to the entries with a backing record, and neither
signals an error (both are total functions of the store). -/
theorem orphaned_index_entries_skipped (s : Store) (now : ℤ) :
    get_due_cards
        { s with decks := s.decks.filter fun m => (load_deck s m.id).isSome }
        now none =
      get_due_cards s now none ∧
    get_dashboard_data
        { s with decks := s.decks.filter fun m => (load_deck s m.id).isSome }
        now =
      get_dashboard_data s now := by
  constructor
  · show goDecks _ now _ [] = goDecks s now s.decks []
    rw [goDecks_decks_irrel, goDecks_filter_present]
  · simp only [get_dashboard_data]
    rw [dashboardLoop_decks_irrel, dashboardLoop_filter_present]

/-- Claim C5: `get_due_cards` returns exactly the cards whose `due` is
absent or `<= now`, restricted to the named deck when a deck id is given and
otherwise drawn from all indexed decks, in deck-index order then card order
(the spec-worded `dueCardsSpec`, which never re-sorts by due date); a card
with `due = None` — in particular a freshly created card — always satisfies
the due predicate, and such a card of any indexed (resp. named) deck appears
in the result. -/
theorem get_due_cards_matches_spec (s : Store) (now : ℤ) :
    (∀ dq : Option String, get_due_cards s now dq = dueCardsSpec s now dq) ∧
    (∀ c : Card, c.due = none → isDue now c = true) ∧
    (∀ (did f b : String) (i : ℕ) (t : ℤ), (initCard did i f b t).due = none) ∧
    (∀ (m : DeckMeta) (deck : Deck) (c : Card), m ∈ s.decks →
      load_deck s m.id = some deck → c ∈ deck.cards → c.due = none →
      (⟨c, m.id, deck.name⟩ : DueEntry) ∈ get_due_cards s now none) ∧
    (∀ (i : String) (deck : Deck) (c : Card), load_deck s i = some deck →
      c ∈ deck.cards → c.due = none →
      (⟨c, i, deck.name⟩ : DueEntry) ∈ get_due_cards s now (some i)) := by
  have hdue : ∀ c : Card, c.due = none → isDue now c = true := by
    intro c h
    simp [isDue, h]
  have heq : ∀ dq : Option String,
      get_due_cards s now dq = dueCardsSpec s now dq := by
    intro dq
    cases dq with
    | none =>
        show goDecks s now s.decks [] = _
        rw [goDecks_eq]
        rfl
    | some i =>
        cases h : load_deck s i with
        | none => simp [get_due_cards, dueCardsSpec, h]
        | some deck =>
            simp [get_due_cards, dueCardsSpec, h, collectDueCards_eq]
  refine ⟨heq, hdue, fun _ _ _ _ _ => rfl, ?_, ?_⟩
  · intro m deck c hm hd hc h0
    rw [heq none]
    exact mem_dueCardsSpecAll hd hc (hdue c h0) s.decks hm
  · intro i deck c hd hc h0
    rw [heq (some i)]
    show _ ∈ dueCardsSpec s now (some i)
    rw [dueCardsSpec, hd]
    exact mem_dueCardsSpecDeck _ _ hc (hdue c h0)

/-- Witness for claim C5 at a concrete store: the fresh card of the indexed
one-card deck is returned by the all-decks query. -/
theorem get_due_cards_matches_spec_witness :
    (⟨exCard, "d", "Deck"⟩ : DueEntry) ∈ get_due_cards exStore 0 none :=
  (get_due_cards_matches_spec exStore 0).2.2.2.1
    { id := "d", name := "Deck", source := some "manual", cardCount := 1 }
    exDeck exCard (by simp [exStore]) rfl (by simp [exDeck]) rfl

/-- Claim C2: on the four valid ratings, the scheduler of `update_card`
computes `(interval, ease, reps)` exactly as the spec's SM-2 table
(`specSM2`) writes it — Again resets, Hard multiplies the interval by 1.2
with floors, Good walks 1/6/`floor(interval*ease)`, Easy walks
4/`floor(interval*ease*1.3)` and rewards ease — and in particular a card
starting at `{interval:1, ease:2.5, reps:0}` rated Good three times runs
through the interval sequence 1 → 1 → 6 → 15 (rounding to two decimals
between reviews included). -/
theorem update_card_sm2_table (i : ℤ) (e : ℚ) (r : ℤ)
    (hi : 1 ≤ i) (hr : 0 ≤ r) :
    (∀ rating : ℤ, rating = 0 ∨ rating = 1 ∨ rating = 2 ∨ rating = 3 →
      specSM2 i e r rating = some (sm2 i e r rating)) ∧
    ((applyRating exCard 2 0).interval = some 1 ∧
      (applyRating (applyRating exCard 2 0) 2 0).interval = some 6 ∧
      (applyRating (applyRating (applyRating exCard 2 0) 2 0) 2 0).interval =
        some 15) := by
  constructor
  · rintro rating (rfl | rfl | rfl | rfl) <;> simp [specSM2, sm2]
  · norm_num [applyRating, sm2, exCard, round2, roundHalfEven, pyInt]

/-- Witness for claim C2: the table agreement evaluated at the Again rating
of a default card. -/
theorem update_card_sm2_table_witness :
    specSM2 1 (5/2) 0 0 = some (sm2 1 (5/2) 0 0) :=
  (update_card_sm2_table 1 (5/2) 0 (by norm_num) (by norm_num)).1 0 (Or.inl rfl)

/-- Claim C3: `ease ≥ 1.3 ∧ interval ≥ 1` is an invariant of card review:
a card satisfying it still satisfies it after `applyRating` with any valid
rating, round-to-two-decimals of the persisted ease included; hence along
every sequence of valid ratings starting from the creation defaults
(`interval=1, ease=2.5`) the ease never drops below 1.3. -/
theorem ease_interval_invariant (now : ℤ) :
    (∀ (c : Card) (rating : ℤ),
      (rating = 0 ∨ rating = 1 ∨ rating = 2 ∨ rating = 3) →
      (13/10 : ℚ) ≤ c.ease.getD (25/10) → 1 ≤ c.interval.getD 1 →
      (13/10 : ℚ) ≤ (applyRating c rating now).ease.getD (25/10) ∧
        1 ≤ (applyRating c rating now).interval.getD 1) ∧
    (∀ (did f b : String) (i : ℕ) (t : ℤ) (rs : List ℤ),
      (∀ r ∈ rs, r = 0 ∨ r = 1 ∨ r = 2 ∨ r = 3) →
      (13/10 : ℚ) ≤ (reviewSeq (initCard did i f b t) now rs).ease.getD (25/10)) := by
  constructor
  · intro c rating _ he hi
    constructor
    · show (13/10 : ℚ) ≤ round2 (sm2 (c.interval.getD 1) (c.ease.getD (25/10))
        (c.reps.getD 0) rating).2.1
      exact round2_ge_of_ge (sm2_ease_ge he _ _ _)
    · show (1 : ℤ) ≤ (sm2 (c.interval.getD 1) (c.ease.getD (25/10))
        (c.reps.getD 0) rating).1
      exact sm2_interval_ge_one hi he _ _
  · intro did f b i t rs _
    exact reviewSeq_ease_ge now rs _ (by norm_num [initCard])

/-- Witness for claim C3: the invariant step evaluated at a default card
rated Again. -/
theorem ease_interval_invariant_witness :
    (13/10 : ℚ) ≤ (applyRating exCard 0 0).ease.getD (25/10) ∧
      1 ≤ (applyRating exCard 0 0).interval.getD 1 :=
  (ease_interval_invariant 0).1 exCard 0 (Or.inl rfl)
    (by norm_num [exCard]) (by norm_num [exCard])

/-- Claim C6: under a successful review — rating Good or Easy with at least
two prior successful reps — the scheduler never shortens the interval:
the new interval is at least the old one. -/
theorem interval_monotone_on_success (i : ℤ) (e : ℚ) (r rating : ℤ)
    (hi : 1 ≤ i) (he : (13/10 : ℚ) ≤ e) (hr : 2 ≤ r)
    (hrat : rating = 2 ∨ rating = 3) :
    i ≤ (sm2 i e r rating).1 := by
  have hi0 : (0 : ℚ) ≤ (i : ℚ) := by exact_mod_cast le_trans zero_le_one hi
  have he1 : (1 : ℚ) ≤ e := by linarith
  have hie : (i : ℚ) ≤ (i : ℚ) * e := le_mul_of_one_le_right hi0 he1
  have hie13 : (i : ℚ) ≤ (i : ℚ) * e * (13/10) := by nlinarith
  rcases hrat with rfl | rfl
  · unfold sm2
    norm_num
    split_ifs <;> first | omega | exact le_pyInt (by omega) hie
  · unfold sm2
    norm_num
    split_ifs <;> first | omega | exact le_pyInt (by omega) hie13

/-- Witness for claim C6: a Good review of a card at interval 6, ease 2.5,
reps 2 does not shorten the interval. -/
theorem interval_monotone_on_success_witness :
    (6 : ℤ) ≤ (sm2 6 (5/2) 2 2).1 :=
  interval_monotone_on_success 6 (5/2) 2 2 (by norm_num) (by norm_num)
    (by norm_num) (Or.inl rfl)

/-- Claim C4: the stats update of `update_card`: a last study exactly one
day before the review date increments the streak, a gap of more than one
day or no prior study resets it to 1, a same-day review leaves it unchanged;
and regardless of the case, `totalReviews` and the review date's activity
count each grow by exactly one on every successful review (whose resulting
stats are exactly `updateStats` of the prior stats). -/
theorem update_card_streak_stats (st : Stats) (today : ℤ) :
    (st.lastStudy = some (today - 1) →
      (updateStats st today).streak = st.streak + 1) ∧
    (st.lastStudy = none → (updateStats st today).streak = 1) ∧
    (∀ last : ℤ, st.lastStudy = some last → 1 < today - last →
      (updateStats st today).streak = 1) ∧
    (st.lastStudy = some today → (updateStats st today).streak = st.streak) ∧
    (updateStats st today).totalReviews = st.totalReviews + 1 ∧
    (updateStats st today).activity today = st.activity today + 1 ∧
    (∀ (s : Store) (did cid : String) (rating now : ℤ) (c : Card) (s2 : Store),
      update_card s did cid rating now today = .ok (c, s2) →
      s2.stats = updateStats s.stats today) := by
  refine ⟨?_, ?_, ?_, ?_, ?_, ?_, ?_⟩
  · intro h
    simp only [updateStats, h]
    rw [if_neg (fun hx => absurd (Option.some.inj hx) (by omega))]
    rw [if_pos (by omega : today - (today - 1) = 1)]
  · intro h
    simp [updateStats, h]
  · intro last h hgap
    simp only [updateStats, h]
    rw [if_neg (fun hx => absurd (Option.some.inj hx) (by omega))]
    rw [if_neg (by omega : ¬ today - last = 1), if_pos hgap]
  · intro h
    simp [updateStats, h]
  · simp only [updateStats]
    cases h : st.lastStudy <;> simp [h] <;> split_ifs <;> rfl
  · simp only [updateStats]
    cases h : st.lastStudy <;> simp [h] <;> split_ifs <;> rfl
  · intro s did cid rating now c s2 h
    unfold update_card at h
    cases hl : load_deck s did with
    | none => simp [hl] at h
    | some deck =>
        simp only [hl] at h
        cases hf : findCard deck.cards cid 0 with
        | none => simp [hf] at h
        | some p =>
            obtain ⟨idx, card⟩ := p
            simp only [hf] at h
            simp only [Except.ok.injEq, Prod.mk.injEq] at h
            rw [← h.2]
            rfl

/-- Witness for claim C4: reviewing on day 2 after a last study on day 1
bumps the streak by one. -/
theorem update_card_streak_stats_witness :
    (updateStats exStatsYesterday 2).streak = exStatsYesterday.streak + 1 :=
  (update_card_streak_stats exStatsYesterday 2).1 rfl

/-- Claim C1 is false on the code: `update_card` has no invalid-rating
check.  At rating 4 — outside `{0,1,2,3}` — on a concrete one-card store it
raises no error (the call returns ok), yet it changes state: the card's
`reps` moves from 0 to 1 and the global `totalReviews` from 0 to 1. -/
theorem update_card_invalid_rating_cex :
    (update_card exStore "d" "d-0" 4 0 0).isOk = true ∧
    (update_card exStore "d" "d-0" 4 0 0).toOption.map (fun p => p.1.reps) =
      some (some 1) ∧
    exCard.reps = some 0 ∧
    (update_card exStore "d" "d-0" 4 0 0).toOption.map
      (fun p => p.2.stats.totalReviews) = some 1 ∧
    exStore.stats.totalReviews = 0 := by
  refine ⟨rfl, ?_, rfl, ?_, rfl⟩
  · simp [update_card, applyRating, sm2, exStore, exDeck, exCard, exStats,
      load_deck, lookupFile, findCard, Except.toOption]
  · simp [update_card, applyRating, sm2, exStore, exDeck, exCard, exStats,
      load_deck, lookupFile, findCard, Except.toOption, updateStats,
      save_deck]

/-- Claim C1 amended: for a rating outside `{0,1,2,3}`, `update_card`
signals no error; the rating is treated as a successful recall whose
specific branch matches nothing, so `reps` increments by one while
`interval` is kept and `ease` is kept up to the two-decimal rounding,
the review stamp (`due`, `lastReview`, `lastRating`) is written, the updated
deck record is saved, and the global stats update as on any review. -/
theorem update_card_out_of_range_rating (s : Store) (did cid : String)
    (rating now today : ℤ) (deck : Deck) (idx : ℕ) (card : Card)
    (hd : load_deck s did = some deck)
    (hc : findCard deck.cards cid 0 = some (idx, card))
    (h0 : rating ≠ 0) (h1 : rating ≠ 1) (h2 : rating ≠ 2) (h3 : rating ≠ 3) :
    update_card s did cid rating now today =
      .ok (applyRating card rating now,
        { s with
            files := saveFile s.files did
              { deck with cards := deck.cards.set idx (applyRating card rating now) }
            stats := updateStats s.stats today }) ∧
    (applyRating card rating now).reps = some (card.reps.getD 0 + 1) ∧
    (applyRating card rating now).interval = some (card.interval.getD 1) ∧
    (applyRating card rating now).ease =
      some (round2 (card.ease.getD (25/10))) ∧
    (applyRating card rating now).lastRating = some rating := by
  have hsm : sm2 (card.interval.getD 1) (card.ease.getD (25/10))
      (card.reps.getD 0) rating =
      (card.interval.getD 1, card.ease.getD (25/10), card.reps.getD 0 + 1) := by
    unfold sm2
    rw [if_neg h0, if_neg h1, if_neg h2, if_neg h3]
  refine ⟨?_, ?_, ?_, ?_, ?_⟩
  · simp only [update_card, hd, hc, save_deck]
  · show some (sm2 (card.interval.getD 1) (card.ease.getD (25/10))
      (card.reps.getD 0) rating).2.2 = _
    rw [hsm]
  · show some (sm2 (card.interval.getD 1) (card.ease.getD (25/10))
      (card.reps.getD 0) rating).1 = _
    rw [hsm]
  · show some (round2 (sm2 (card.interval.getD 1) (card.ease.getD (25/10))
      (card.reps.getD 0) rating).2.1) = _
    rw [hsm]
  · rfl

/-- Witness for the amended claim C1: rating 4 on a default card increments
`reps`. -/
theorem update_card_out_of_range_rating_witness :
    (applyRating exCard 4 0).reps = some (exCard.reps.getD 0 + 1) :=
  (update_card_out_of_range_rating exStore "d" "d-0" 4 0 0 exDeck 0 exCard
    rfl rfl (by decide) (by decide) (by decide) (by decide)).2.1

/-- Claim C10: cards lacking scheduling fields are tolerated: a card with no
`interval`, `ease` or `reps` reviews exactly as if it carried the defaults
`interval=1, ease=2.5, reps=0`, and the review goes through (`update_card`
returns ok whenever the deck and card are found); likewise the dashboard's
mastered count reads a missing `interval` as 1. -/
theorem missing_scheduling_fields_defaults (c : Card) (rating now : ℤ)
    (hi : c.interval = none) (he : c.ease = none) (hr : c.reps = none) :
    applyRating c rating now =
      applyRating
        { c with interval := some 1, ease := some (25/10), reps := some 0 }
        rating now ∧
    (∀ (s : Store) (did cid : String) (deck : Deck) (idx : ℕ) (today : ℤ),
      load_deck s did = some deck →
      findCard deck.cards cid 0 = some (idx, c) →
      (update_card s did cid rating now today).isOk = true) ∧
    (∀ c2 : Card, c2.interval = none →
      deckCounts now [c2] = deckCounts now [{ c2 with interval := some 1 }]) := by
  refine ⟨?_, ?_, ?_⟩
  · simp [applyRating, hi, he, hr]
  · intro s did cid deck idx today hd hc
    simp [update_card, hd, hc, Except.isOk, Except.toBool]
  · intro c2 h2
    simp [deckCounts, h2]

/-- Witness for claim C10: a card with none of the scheduling fields reviews
as the default card. -/
theorem missing_scheduling_fields_defaults_witness :
    applyRating bareCard 2 0 =
      applyRating
        { bareCard with
            interval := some 1
            ease := some (25/10)
            reps := some 0 } 2 0 :=
  (missing_scheduling_fields_defaults bareCard 2 0 rfl rfl rfl).1

end StudyBuddy
